import Mathlib

/-!
Verification of the node-naming, security-group, and OAuth token-cache
logic of a cluster-provisioning tool.

Shallow embedding notes:
* Go strings are modelled as Lean `String` (with `String.data` giving the
  character list); decimal formatting (`fmt.Sprintf("%d", ...)`) and parsing
  (`strconv.Atoi`) are embedded as executable functions below.
* Effectful calls (filesystem, EC2 API, OAuth exchange, subprocess output)
  are modelled by passing the outcome of the external call (or the external
  environment) as an explicit argument; the embedded function then performs
  exactly the control flow of the Go source on that outcome.
* Go `int` / `int64` are 64-bit; `strconv.Atoi` fails on values outside
  the signed 64-bit range, which the embedding reproduces.
-/

namespace Docker

/-- Largest value of a Go signed 64-bit `int` (`math.MaxInt64`). -/
def maxGoInt : Nat := 9223372036854775807

/-- Character of a single decimal digit (`d < 10`). -/
def digitToChar (d : Nat) : Char :=
  if d = 0 then '0' else if d = 1 then '1' else if d = 2 then '2'
  else if d = 3 then '3' else if d = 4 then '4' else if d = 5 then '5'
  else if d = 6 then '6' else if d = 7 then '7' else if d = 8 then '8'
  else '9'

/-- Decimal digit string of a natural number, most significant digit first.
Embeds the `%d` formatting of a non-negative value. -/
def natDigits (n : Nat) : List Char :=
  if _h : n < 10 then [digitToChar n]
  else natDigits (n / 10) ++ [digitToChar (n % 10)]
  decreasing_by
    exact Nat.div_lt_self (by omega) (by omega)

/-- Decimal rendering of a Go `int` (embeds `fmt.Sprintf("%d", id)`). -/
def intDecimal (i : Int) : List Char :=
  if i < 0 then '-' :: natDigits i.natAbs else natDigits i.natAbs

/-- Numeric value of a digit character list (base 10, `'0'` = 48). -/
def digitsVal (cs : List Char) : Nat :=
  cs.foldl (fun a c => 10 * a + (c.toNat - 48)) 0

/-- Magnitude part of `strconv.Atoi`: decimal digits after the optional
sign; fails on an empty body, a non-digit, or a value outside the signed
64-bit range. -/
def goAtoiMag (neg : Bool) (ds : List Char) : Option Int :=
  if ds = [] then none
  else if ds.all Char.isDigit then
    if neg then
      if digitsVal ds ≤ maxGoInt + 1 then some (-(digitsVal ds : Int))
      else none
    else
      if digitsVal ds ≤ maxGoInt then some ((digitsVal ds : Int))
      else none
  else none

/-- Embeds Go `strconv.Atoi` applied to the character list of the input:
optional sign, then decimal digits. -/
def goAtoi : List Char → Option Int
  | [] => none
  | c :: rest =>
    if c = '-' then goAtoiMag true rest
    else if c = '+' then goAtoiMag false rest
    else goAtoiMag false (c :: rest)

/-- Removes the literal `p` from the front of `cs`; `none` when `cs` does
not start with `p`. -/
def dropLit : List Char → List Char → Option (List Char)
  | [], cs => some cs
  | _ :: _, [] => none
  | p :: ps, c :: cs => if c = p then dropLit ps cs else none

/-- The submatch of the anchored pattern `^cockroach-([0-9]+)$` on a
character list: the captured digit group when the whole list matches,
`none` otherwise. -/
def cockroachNodeSubmatchChars (cs : List Char) : Option (List Char) :=
  match dropLit "cockroach-".data cs with
  | none => none
  | some ds => if ds ≠ [] ∧ ds.all Char.isDigit then some ds else none

/-- The submatch of `cockroachNodeRegexp` (`FindStringSubmatch` group 1):
the captured digit group when the whole string matches, `none`
otherwise. -/
def cockroachNodeSubmatch (s : String) : Option (List Char) :=
  cockroachNodeSubmatchChars s.data

/-- `cockroachNodeRegexp.MatchString`: full-string match of the node
naming pattern. -/
def isCockroachNode (s : String) : Bool :=
  (cockroachNodeSubmatch s).isSome

/-- `MakeNodeName` generates a cockroach node name for the given ID
(`fmt.Sprintf("cockroach-%d", id)`). -/
def MakeNodeName (id : Int) : String :=
  String.mk ("cockroach-".data ++ intDecimal id)

/-- The regexp-submatch-then-`strconv.Atoi` step performed on each node
name by `GetLargestNodeIndex`: the parsed index when the name matches and
its digit group parses, `none` otherwise. -/
def parseNodeIndex (s : String) : Option Int :=
  match cockroachNodeSubmatch s with
  | none => none
  | some ds => goAtoi ds

/-- The spec's `ParseIndex`: extracts the integer from a node name,
`(_, false)` when the name does not match or its index fails to parse. -/
def ParseIndex (s : String) : Int × Bool :=
  match parseNodeIndex s with
  | none => (0, false)
  | some i => (i, true)

/-- Loop body of `GetLargestNodeIndex`: walks the node names keeping the
largest index seen in `largest`; on the first name whose regexp submatch
or `Atoi` fails, returns `-1` with an error naming that entry. -/
def getLargestNodeIndexLoop (largest : Int) :
    List String → Int × Option String
  | [] => (largest, none)
  | nodeName :: rest =>
    match parseNodeIndex nodeName with
    | none => (-1, some ("invalid cockroach node name: " ++ nodeName))
    | some index =>
      getLargestNodeIndexLoop (if index > largest then index else largest) rest

/-- `GetLargestNodeIndex` takes a list of node names and returns the
largest node index seen (`0` if no nodes are passed) paired with `none`,
or `-1` paired with a parse error. -/
def GetLargestNodeIndex (nodes : List String) : Int × Option String :=
  getLargestNodeIndexLoop 0 nodes

/-- Accumulator loop of `ListCockroachNodes`: appends each machine name
matching `cockroachNodeRegexp` to `ret`. -/
def listCockroachNodesLoop (ret : List String) : List String → List String
  | [] => ret
  | mach :: rest =>
    listCockroachNodesLoop
      (if isCockroachNode mach then ret ++ [mach] else ret) rest

/-- `ListCockroachNodes` filters the machine listing down to cockroach
nodes. The argument is the outcome of `ListMachines` (the external
`docker-machine ls -q` call); its error propagates unchanged, and on
success the names are filtered with no error possible. -/
def ListCockroachNodes (machines : Except String (List String)) :
    Except String (List String) :=
  match machines with
  | .error err => .error err
  | .ok ms => .ok (listCockroachNodesLoop [] ms)

/-- `docker-machine version ` (`dockerMachineVersionStringPrefix`). -/
def dockerMachineVersionStr : String := "docker-machine version "

/-- Whether `s` starts with the literal `p` (`strings.HasPrefix p` applied
to `s`). -/
def goHasPfx (p s : String) : Bool :=
  (dropLit p.data s.data).isSome

/-- `CheckDockerMachine` verifies that docker-machine is installed and
runnable. The argument is the outcome of running `docker-machine -v`
(`cmd.Output()`): an execution error, or the captured stdout. Returns
`none` on success and the error otherwise. -/
def CheckDockerMachine (cmdOutput : Except String String) : Option String :=
  match cmdOutput with
  | .error err => some err
  | .ok out =>
    if goHasPfx dockerMachineVersionStr out then none
    else some ("bad output " ++ out ++
      " for docker-machine -v, expected string prefix " ++
      dockerMachineVersionStr)

end Docker

namespace Amazon

/-- `securityGroupName`: the single well-known group name looked up. -/
def securityGroupName : String := "docker-machine"

/-- `allIPAddresses`: the unrestricted source CIDR. -/
def allIPAddresses : String := "0.0.0.0/0"

/-- `cockroachProtocol`: the fixed protocol of the ingress rule. -/
def cockroachProtocol : String := "tcp"

/-- `awsSecurityRuleDuplicateError`: the provider's duplicate-permission
error code. -/
def awsSecurityRuleDuplicateError : String := "InvalidPermission.Duplicate"

/-- An AWS API error, carrying the provider's error code. -/
structure AWSError where
  code : String
  message : String
  deriving DecidableEq, Repr

/-- Modelled from the spec: `IsAWSErrorCode` is declared outside the
provided sources (only its caller `AddCockroachSecurityGroupIngress` is
given). Per the spec's idempotency contract — "if the provider reports
the rule already exists (a specific duplicate-permission error code)" —
it holds exactly when the error is present and carries the given code. -/
def IsAWSErrorCode (err : Option AWSError) (code : String) : Bool :=
  match err with
  | none => false
  | some e => e.code == code

/-- One EC2 security-group record; only the group ID is consumed. -/
structure SecurityGroup where
  groupId : String
  deriving DecidableEq, Repr

/-- Errors of `FindSecurityGroup`: a propagated provider lookup error, or
the NotFound-class error raised when zero groups match. -/
inductive FindSGError where
  | providerError (e : String)
  | notFound (msg : String)
  deriving DecidableEq, Repr

/-- `FindSecurityGroup` looks for the security group created by
docker-machine. `describeSecurityGroups` is the region-scoped EC2
`DescribeSecurityGroups` call, given the region and the requested group
names. Not finding the security group is an error. -/
def FindSecurityGroup
    (describeSecurityGroups : String → List String →
      Except String (List SecurityGroup))
    (region : String) : Except FindSGError String :=
  match describeSecurityGroups region [securityGroupName] with
  | .error err => .error (.providerError err)
  | .ok groups =>
    match groups with
    | [] => .error (.notFound ("security group with name " ++
        securityGroupName ++ " not found"))
    | g :: _ => .ok g.groupId

/-- The `AuthorizeSecurityGroupIngressInput` request built by
`AddCockroachSecurityGroupIngress`. -/
structure IngressRequest where
  cidrIp : String
  fromPort : Int
  toPort : Int
  ipProtocol : String
  groupId : String
  deriving DecidableEq, Repr

/-- The ingress request for the cockroach port: unrestricted source CIDR,
TCP, symmetric from/to port. -/
def cockroachIngressInput (cockroachPort : Int) (securityGroupID : String) :
    IngressRequest :=
  { cidrIp := allIPAddresses
    fromPort := cockroachPort
    toPort := cockroachPort
    ipProtocol := cockroachProtocol
    groupId := securityGroupID }

/-- `AddCockroachSecurityGroupIngress` adds the cockroach port ingress
rule to the security group. `authorizeIngress` is the region-scoped EC2
`AuthorizeSecurityGroupIngress` call (its reply on this invocation).
Duplicates are technically errors according to the AWS API, but the
duplicate error code is checked for and `nil` returned. -/
def AddCockroachSecurityGroupIngress
    (authorizeIngress : String → IngressRequest → Option AWSError)
    (region : String) (cockroachPort : Int) (securityGroupID : String) :
    Option AWSError :=
  let err := authorizeIngress region
    (cockroachIngressInput cockroachPort securityGroupID)
  if IsAWSErrorCode err awsSecurityRuleDuplicateError then none
  else err

end Amazon

namespace Google

/-- An OAuth token as persisted/exchanged (the fields relevant to the
cache round trip). -/
structure OAuthToken where
  accessToken : String
  refreshToken : String
  deriving DecidableEq, Repr

/-- The external environment of the token flow: the decodable contents of
the token file at `authTokenPath` (`none` = absent, unreadable or
undecodable) and the outcome the OAuth endpoint gives for the code the
user enters. -/
structure AuthWorld where
  tokenFile : Option OAuthToken
  exchangeOutcome : Except String OAuthToken
  deriving Repr

/-- `gobSource.Token` returns the cached token value, or an error if none
is found (open or gob-decode failure). -/
def gobSourceToken (w : AuthWorld) : Except String OAuthToken :=
  match w.tokenFile with
  | none => .error "open or decode of token file failed"
  | some tok => .ok tok

/-- Result of one `browserSource.Token` call: the world afterwards,
whether the interactive browser/stdin flow ran, and the returned token or
error. -/
structure BrowserTokenResult where
  world : AuthWorld
  interactive : Bool
  result : Except String OAuthToken
  deriving Repr

/-- `browserSource.Token` (over `base = gobSource`): returns the cached
token when the file read succeeds; otherwise runs the interactive flow
(auth URL, browser, code from stdin) and returns the outcome of
`oauth2Config.Exchange` directly. The world is returned unchanged on
both paths: the function contains no write to the token file. -/
def browserSourceToken (w : AuthWorld) : BrowserTokenResult :=
  match gobSourceToken w with
  | .ok token => ⟨w, false, .ok token⟩
  | .error _ => ⟨w, true, w.exchangeOutcome⟩

/-- The filesystem state at the token path: the parent directory with its
permission mode when it exists, and the token file with its list of
encoded records and its mode when it exists. -/
structure TokenFS where
  parentDir : Option Nat
  file : Option (List OAuthToken × Nat)
  deriving DecidableEq, Repr

/-- Injected outcomes of the four effectful steps of `PutToken`:
`os.MkdirAll`, `os.OpenFile`, gob `Encode`, and `Close`. -/
structure PutFailures where
  mkdirFails : Bool
  openFails : Bool
  encodeFails : Bool
  closeFails : Bool
  deriving DecidableEq, Repr

/-- `gobSource.PutToken` stores the given token in the cache: creates the
parent directory (`os.MkdirAll(parent, 0700)`, 448 = octal 700), opens
the file with `O_RDWR|O_CREATE|O_TRUNC` and mode `0600` (384 = octal
600, applied only on creation; truncation empties any prior records),
gob-encodes the single token, and closes. The encode and close errors
are both computed, and the encode error is returned in priority. -/
def gobSourcePutToken (fs : TokenFS) (fl : PutFailures) (tok : OAuthToken) :
    TokenFS × Option String :=
  if fl.mkdirFails then (fs, some "mkdir failed")
  else
    let fs1 : TokenFS := { fs with parentDir := some (fs.parentDir.getD 448) }
    if fl.openFails then (fs1, some "open failed")
    else
      let fileMode : Nat := (fs1.file.map Prod.snd).getD 384
      let fs2 : TokenFS :=
        if fl.encodeFails then { fs1 with file := some ([], fileMode) }
        else { fs1 with file := some ([tok], fileMode) }
      let encErr : Option String :=
        if fl.encodeFails then some "encode failed" else none
      let clErr : Option String :=
        if fl.closeFails then some "close failed" else none
      match encErr with
      | some e => (fs2, some e)
      | none =>
        match clErr with
        | some e => (fs2, some e)
        | none => (fs2, none)

end Google


/-! ## Helper lemmas: decimal digits round-trip -/

namespace Docker

theorem digitToChar_isDigit (d : Nat) : (digitToChar d).isDigit = true := by
  unfold digitToChar
  repeat first
  | decide
  | split

theorem digitToChar_val (d : Nat) (h : d < 10) :
    (digitToChar d).toNat - 48 = d := by
  interval_cases d <;> decide

theorem natDigits_ne_nil (n : Nat) : natDigits n ≠ [] := by
  unfold natDigits
  split
  · simp
  · simp

theorem natDigits_all_digit (n : Nat) :
    (natDigits n).all Char.isDigit = true := by
  induction n using Nat.strong_induction_on with
  | _ n ih =>
    unfold natDigits
    split
    · simp [digitToChar_isDigit]
    · rename_i h
      rw [List.all_append]
      have hd : n / 10 < n := Nat.div_lt_self (by omega) (by omega)
      simp [digitToChar_isDigit, ih (n / 10) hd]

theorem digitsVal_append_digit (xs : List Char) (c : Char) :
    digitsVal (xs ++ [c]) = 10 * digitsVal xs + (c.toNat - 48) := by
  unfold digitsVal
  rw [List.foldl_append]
  rfl

theorem digitsVal_natDigits (n : Nat) : digitsVal (natDigits n) = n := by
  induction n using Nat.strong_induction_on with
  | _ n ih =>
    unfold natDigits
    split
    · rename_i h
      show digitsVal [digitToChar n] = n
      unfold digitsVal
      simp [digitToChar_val n h]
    · rename_i h
      have hd : n / 10 < n := Nat.div_lt_self (by omega) (by omega)
      rw [digitsVal_append_digit, ih (n / 10) hd,
        digitToChar_val (n % 10) (Nat.mod_lt _ (by omega))]
      omega

theorem dropLit_append (p rest : List Char) :
    dropLit p (p ++ rest) = some rest := by
  induction p with
  | nil => rfl
  | cons c cs ih => simp [dropLit, ih]

theorem isDigit_ne_minus {c : Char} (h : c.isDigit = true) : c ≠ '-' := by
  intro he
  subst he
  exact absurd h (by decide)

theorem isDigit_ne_plus {c : Char} (h : c.isDigit = true) : c ≠ '+' := by
  intro he
  subst he
  exact absurd h (by decide)

theorem goAtoiMag_digits (ds : List Char) (hne : ds ≠ [])
    (hall : ds.all Char.isDigit = true) (hle : digitsVal ds ≤ maxGoInt) :
    goAtoiMag false ds = some ((digitsVal ds : Int)) := by
  unfold goAtoiMag
  simp [hne, hall, hle]

theorem goAtoi_digits (ds : List Char) (hne : ds ≠ [])
    (hall : ds.all Char.isDigit = true) (hle : digitsVal ds ≤ maxGoInt) :
    goAtoi ds = some ((digitsVal ds : Int)) := by
  match ds, hne with
  | c :: rest, _ =>
    have hc : c.isDigit = true := by
      rw [List.all_cons] at hall
      exact (Bool.and_eq_true _ _ |>.mp hall).1
    show (if c = '-' then goAtoiMag true rest
      else if c = '+' then goAtoiMag false rest
      else goAtoiMag false (c :: rest)) = some ((digitsVal (c :: rest) : Int))
    rw [if_neg (isDigit_ne_minus hc), if_neg (isDigit_ne_plus hc)]
    exact goAtoiMag_digits _ (by simp) hall hle

end Docker

namespace Docker

theorem intDecimal_ofNat (n : Nat) : intDecimal (n : Int) = natDigits n := by
  unfold intDecimal
  simp

theorem submatch_makeNodeName (n : Nat) :
    cockroachNodeSubmatch (MakeNodeName (n : Int)) = some (natDigits n) := by
  show cockroachNodeSubmatchChars ("cockroach-".data ++ intDecimal (n : Int)) =
    some (natDigits n)
  rw [intDecimal_ofNat]
  unfold cockroachNodeSubmatchChars
  rw [dropLit_append]
  simp [natDigits_ne_nil, natDigits_all_digit]

theorem parseNodeIndex_makeNodeName (n : Nat) (h : n ≤ maxGoInt) :
    parseNodeIndex (MakeNodeName (n : Int)) = some ((n : Int)) := by
  have h1 : digitsVal (natDigits n) ≤ maxGoInt := by
    rw [digitsVal_natDigits]
    exact h
  simp only [parseNodeIndex, submatch_makeNodeName]
  rw [goAtoi_digits _ (natDigits_ne_nil n) (natDigits_all_digit n) h1,
    digitsVal_natDigits]

theorem intDecimal_neg (id : Int) (h : id < 0) :
    intDecimal id = '-' :: natDigits id.natAbs := by
  unfold intDecimal
  rw [if_pos h]

theorem submatch_makeNodeName_neg (id : Int) (h : id < 0) :
    cockroachNodeSubmatch (MakeNodeName id) = none := by
  show cockroachNodeSubmatchChars ("cockroach-".data ++ intDecimal id) = none
  rw [intDecimal_neg id h]
  unfold cockroachNodeSubmatchChars
  rw [dropLit_append]
  have hall : (('-') :: natDigits id.natAbs).all Char.isDigit = false := by
    rw [List.all_cons, show ('-').isDigit = false from rfl]
    rfl
  simp [hall]

theorem getLargestLoop_error_of_mem (bad : String)
    (hbad : parseNodeIndex bad = none) :
    ∀ (nodes : List String) (largest : Int), bad ∈ nodes →
      ∃ msg, getLargestNodeIndexLoop largest nodes = (-1, some msg) := by
  intro nodes
  induction nodes with
  | nil =>
    intro largest hmem
    cases hmem
  | cons s rest ih =>
    intro largest hmem
    simp only [getLargestNodeIndexLoop]
    cases hs : parseNodeIndex s with
    | none => exact ⟨"invalid cockroach node name: " ++ s, rfl⟩
    | some i =>
      have hbr : bad ∈ rest := by
        rcases List.mem_cons.mp hmem with he | hr
        · rw [he, hs] at hbad
          cases hbad
        · exact hr
      exact ih _ hbr

end Docker

/-! ## Claim theorems: node inventory -/

namespace Docker

/-- C3: Round-trip law of the node naming scheme: for every non-negative
integer `n` in the domain of a Go `int`, parsing the name produced by
`MakeNodeName n` against `cockroachNodeRegexp` and converting the captured
group back to an integer with `strconv.Atoi` succeeds and yields `n`,
i.e. `ParseIndex (MakeNodeName n) = (n, true)`. -/
theorem c3_parseIndex_roundtrip (n : Nat) (h : n ≤ maxGoInt) :
    ParseIndex (MakeNodeName (n : Int)) = ((n : Int), true) := by
  unfold ParseIndex
  rw [parseNodeIndex_makeNodeName n h]

/-- Witness for C3 at `n = 3`. -/
theorem c3_parseIndex_roundtrip_witness :
    (3 : Nat) ≤ maxGoInt
    ∧ ParseIndex (MakeNodeName ((3 : Nat) : Int)) = (((3 : Nat) : Int), true) :=
  ⟨by decide, c3_parseIndex_roundtrip 3 (by decide)⟩

theorem intMaxIf (a b : Int) : (if b > a then b else a) = max a b := by
  rcases le_or_lt b a with h | h
  · rw [if_neg (not_lt.mpr h), max_eq_left h]
  · rw [if_pos h, max_eq_right h.le]

theorem getLargestLoop_wellformed (ids : List Nat) :
    (∀ i ∈ ids, i ≤ maxGoInt) → ∀ largest : Int,
      getLargestNodeIndexLoop largest
          (ids.map fun i => MakeNodeName (i : Int)) =
        (ids.foldl (fun a i => max a (i : Int)) largest, none) := by
  induction ids with
  | nil =>
    intro _ largest
    rfl
  | cons i rest ih =>
    intro h largest
    simp only [List.map_cons, getLargestNodeIndexLoop, List.foldl_cons]
    simp only [parseNodeIndex_makeNodeName i (h i (List.mem_cons_self i rest))]
    rw [intMaxIf]
    exact ih (fun j hj => h j (List.mem_cons_of_mem i hj)) _

/-- C4: `GetLargestNodeIndex` returns the maximum parsed index over the
input name sequence (floor 0, so the empty sequence yields 0) and not
that maximum plus one; duplicates are irrelevant since only the running
maximum is kept. -/
theorem c4_getLargestNodeIndex_max (ids : List Nat)
    (h : ∀ i ∈ ids, i ≤ maxGoInt) :
    GetLargestNodeIndex (ids.map fun i => MakeNodeName (i : Int)) =
      (ids.foldl (fun a i => max a (i : Int)) 0, none) :=
  getLargestLoop_wellformed ids h 0

/-- Witness for C4: the empty sequence yields `(0, none)`, the names of
`[3, 1]` yield `(3, none)`, and duplicates `[3, 1, 3]` also yield
`(3, none)`. -/
theorem c4_getLargestNodeIndex_max_witness :
    GetLargestNodeIndex [] = (0, none)
    ∧ GetLargestNodeIndex [MakeNodeName 3, MakeNodeName 1] = (3, none)
    ∧ GetLargestNodeIndex [MakeNodeName 3, MakeNodeName 1, MakeNodeName 3] =
      (3, none) := by
  refine ⟨c4_getLargestNodeIndex_max [] (by decide), ?_, ?_⟩
  · have h := c4_getLargestNodeIndex_max [3, 1] (by decide)
    exact h
  · have h := c4_getLargestNodeIndex_max [3, 1, 3] (by decide)
    exact h

theorem getLargestLoop_first_bad (post : List String) (bad : String)
    (hbad : parseNodeIndex bad = none) :
    ∀ (pre : List String), (∀ s ∈ pre, ∃ i, parseNodeIndex s = some i) →
      ∀ largest : Int,
        getLargestNodeIndexLoop largest (pre ++ bad :: post) =
          (-1, some ("invalid cockroach node name: " ++ bad)) := by
  intro pre
  induction pre with
  | nil =>
    intro _ largest
    simp only [List.nil_append, getLargestNodeIndexLoop, hbad]
  | cons s rest ih =>
    intro hpre largest
    obtain ⟨i, hi⟩ := hpre s (List.mem_cons_self s rest)
    simp only [List.cons_append, getLargestNodeIndexLoop, hi]
    exact ih (fun t ht => hpre t (List.mem_cons_of_mem s ht)) _

/-- C5: `GetLargestNodeIndex` fails with an error naming the offending
entry on an entry whose regexp submatch or captured-index parse fails
(in particular an index too large for `strconv.Atoi`, and the
pattern-rejected `"cockroach-x"` when the `ListCockroachNodes` filter is
bypassed), provided every earlier entry parses. -/
theorem c5_getLargestNodeIndex_parse_error (pre post : List String)
    (bad : String) (hpre : ∀ s ∈ pre, ∃ i, parseNodeIndex s = some i)
    (hbad : parseNodeIndex bad = none) :
    GetLargestNodeIndex (pre ++ bad :: post) =
      (-1, some ("invalid cockroach node name: " ++ bad)) :=
  getLargestLoop_first_bad post bad hbad pre hpre 0

/-- Witness for C5: `"cockroach-x"` (pattern mismatch) and
`"cockroach-9999999999999999999"` (matches the pattern but its captured
index exceeds the signed 64-bit range, so `strconv.Atoi` fails) each make
`GetLargestNodeIndex` fail naming the entry. -/
theorem c5_getLargestNodeIndex_parse_error_witness :
    GetLargestNodeIndex ["cockroach-x"] =
      (-1, some "invalid cockroach node name: cockroach-x")
    ∧ isCockroachNode "cockroach-9999999999999999999" = true
    ∧ GetLargestNodeIndex ["cockroach-9999999999999999999"] =
      (-1, some "invalid cockroach node name: cockroach-9999999999999999999") := by
  refine ⟨?_, by decide, ?_⟩
  · exact c5_getLargestNodeIndex_parse_error [] [] "cockroach-x"
      (by intro s hs; cases hs) (by decide)
  · exact c5_getLargestNodeIndex_parse_error [] []
      "cockroach-9999999999999999999" (by intro s hs; cases hs) (by decide)

end Docker

namespace Docker

theorem listLoop_eq_filter (ms : List String) :
    ∀ ret : List String,
      listCockroachNodesLoop ret ms =
        ret ++ ms.filter (fun m => isCockroachNode m) := by
  induction ms with
  | nil =>
    intro ret
    simp [listCockroachNodesLoop]
  | cons m rest ih =>
    intro ret
    simp only [listCockroachNodesLoop, List.filter_cons]
    by_cases h : isCockroachNode m
    · simp [h, ih, List.append_assoc]
    · simp [h, ih]

/-- C6: `ListCockroachNodes` returns exactly the subsequence of the input
name list whose elements match `cockroachNodeRegexp`, preserving the
input order (a sublist); names failing the pattern are silently dropped
and never cause an error. -/
theorem c6_listCockroachNodes_filter (ms : List String) :
    ListCockroachNodes (.ok ms) =
      .ok (ms.filter (fun m => isCockroachNode m))
    ∧ (ms.filter (fun m => isCockroachNode m)).Sublist ms
    ∧ ∀ m, m ∈ ms.filter (fun m => isCockroachNode m) ↔
        m ∈ ms ∧ isCockroachNode m = true := by
  refine ⟨?_, List.filter_sublist _, fun m => ?_⟩
  · show Except.ok (listCockroachNodesLoop [] ms) = _
    rw [listLoop_eq_filter ms []]
    rfl
  · exact List.mem_filter

/-- C9: the version check succeeds (returns `none`) iff running the tool
with `-v` succeeded and its output begins with the fixed version-string
prefix; any other output, and any failure to run the tool, yields an
error. -/
theorem c9_checkDockerMachine_iff (r : Except String String) :
    CheckDockerMachine r = none ↔
      ∃ out, r = .ok out ∧ goHasPfx dockerMachineVersionStr out = true := by
  cases r with
  | error e => simp [CheckDockerMachine]
  | ok out =>
    by_cases h : goHasPfx dockerMachineVersionStr out <;>
      simp [CheckDockerMachine, h]

/-- C10: `MakeNodeName` is total on all integers, but on a negative `id`
it produces a string with an extra `'-'` after the prefix, which
`cockroachNodeRegexp` rejects, so `isCockroachNode` is false on it and
`GetLargestNodeIndex` on any list containing it returns `-1` with an
error rather than a valid index. -/
theorem c10_makeNodeName_negative (id : Int) (h : id < 0) :
    MakeNodeName id =
      String.mk ("cockroach-".data ++ '-' :: natDigits id.natAbs)
    ∧ isCockroachNode (MakeNodeName id) = false
    ∧ ∀ nodes, MakeNodeName id ∈ nodes →
        ∃ msg, GetLargestNodeIndex nodes = (-1, some msg) := by
  refine ⟨by rw [MakeNodeName, intDecimal_neg id h], ?_, ?_⟩
  · rw [isCockroachNode, submatch_makeNodeName_neg id h]
    rfl
  · intro nodes hmem
    have hbad : parseNodeIndex (MakeNodeName id) = none := by
      simp only [parseNodeIndex, submatch_makeNodeName_neg id h]
    exact getLargestLoop_error_of_mem (MakeNodeName id) hbad nodes 0 hmem

/-- Witness for C10 at `id = -1`. -/
theorem c10_makeNodeName_negative_witness :
    isCockroachNode (MakeNodeName (-1)) = false
    ∧ ∃ msg, GetLargestNodeIndex [MakeNodeName (-1)] = (-1, some msg) := by
  have h := c10_makeNodeName_negative (-1) (by decide)
  exact ⟨h.2.1, h.2.2 [MakeNodeName (-1)] (List.mem_singleton.mpr rfl)⟩

end Docker

/-! ## Claim theorems: security group provisioning -/

namespace Amazon

/-- C2: `AddCockroachSecurityGroupIngress` is idempotent with respect to
the provider's duplicate-rule response: when the provider call succeeds
or returns an error carrying the duplicate-permission code, the function
returns success (`none`), so two successive calls with identical
arguments (the second drawing the duplicate-rule reply) both succeed;
every other non-`none` provider error is returned unchanged. -/
theorem c2_addIngress_idempotent
    (auth1 auth2 : String → IngressRequest → Option AWSError)
    (region : String) (port : Int) (gid : String) :
    (auth1 region (cockroachIngressInput port gid) = none →
      AddCockroachSecurityGroupIngress auth1 region port gid = none)
    ∧ (∀ e, auth2 region (cockroachIngressInput port gid) = some e →
        e.code = awsSecurityRuleDuplicateError →
        AddCockroachSecurityGroupIngress auth2 region port gid = none)
    ∧ (∀ e, auth1 region (cockroachIngressInput port gid) = some e →
        e.code ≠ awsSecurityRuleDuplicateError →
        AddCockroachSecurityGroupIngress auth1 region port gid = some e) := by
  unfold AddCockroachSecurityGroupIngress IsAWSErrorCode
  refine ⟨fun h => ?_, fun e he hc => ?_, fun e he hc => ?_⟩
  · simp [h]
  · simp [he, hc]
  · simp [he, hc]

/-- Witness for C2: first call against a provider that accepts the rule,
second call against the provider now reporting the duplicate code — both
succeed; a throttling error is surfaced unchanged. -/
theorem c2_addIngress_idempotent_witness :
    AddCockroachSecurityGroupIngress (fun _ _ => none)
      "us-east-1" 8080 "sg-1" = none
    ∧ AddCockroachSecurityGroupIngress
        (fun _ _ => some ⟨"InvalidPermission.Duplicate", "rule exists"⟩)
        "us-east-1" 8080 "sg-1" = none
    ∧ AddCockroachSecurityGroupIngress
        (fun _ _ => some ⟨"Throttling", "slow down"⟩)
        "us-east-1" 8080 "sg-1" = some ⟨"Throttling", "slow down"⟩ := by
  have h := c2_addIngress_idempotent (fun _ _ => none)
    (fun _ _ => some ⟨"InvalidPermission.Duplicate", "rule exists"⟩)
    "us-east-1" 8080 "sg-1"
  have h2 := c2_addIngress_idempotent
    (fun _ _ => some ⟨"Throttling", "slow down"⟩)
    (fun _ _ => some ⟨"InvalidPermission.Duplicate", "rule exists"⟩)
    "us-east-1" 8080 "sg-1"
  exact ⟨h.1 rfl,
    h.2.1 ⟨"InvalidPermission.Duplicate", "rule exists"⟩ rfl rfl,
    h2.2.2 ⟨"Throttling", "slow down"⟩ rfl (by decide)⟩

/-- C7: `FindSecurityGroup` propagates any provider lookup error, fails
with the NotFound-class error when zero groups match the single
well-known name, and otherwise returns the group ID of the first
matching group. -/
theorem c7_findSecurityGroup_spec
    (describe : String → List String → Except String (List SecurityGroup))
    (region : String) :
    (∀ e, describe region [securityGroupName] = .error e →
      FindSecurityGroup describe region = .error (.providerError e))
    ∧ (describe region [securityGroupName] = .ok [] →
      FindSecurityGroup describe region = .error (.notFound
        ("security group with name " ++ securityGroupName ++ " not found")))
    ∧ (∀ g rest, describe region [securityGroupName] = .ok (g :: rest) →
      FindSecurityGroup describe region = .ok g.groupId) := by
  unfold FindSecurityGroup
  refine ⟨fun e he => ?_, fun h0 => ?_, fun g rest hg => ?_⟩
  · rw [he]
  · rw [h0]
  · rw [hg]

/-- Witness for C7: a failing lookup, an empty group list, and a
singleton group list, each with a concrete provider reply. -/
theorem c7_findSecurityGroup_spec_witness :
    FindSecurityGroup (fun _ _ => .error "api down") "us-east-1" =
      .error (.providerError "api down")
    ∧ FindSecurityGroup (fun _ _ => .ok []) "us-east-1" =
      .error (.notFound "security group with name docker-machine not found")
    ∧ FindSecurityGroup (fun _ _ => .ok [⟨"sg-123"⟩]) "us-east-1" =
      .ok "sg-123" := by
  have h1 := c7_findSecurityGroup_spec (fun _ _ => .error "api down")
    "us-east-1"
  have h2 := c7_findSecurityGroup_spec
    (fun _ _ => .ok ([] : List SecurityGroup)) "us-east-1"
  have h3 := c7_findSecurityGroup_spec (fun _ _ => .ok [⟨"sg-123"⟩])
    "us-east-1"
  exact ⟨h1.1 "api down" rfl, h2.2.1 rfl, h3.2.2 ⟨"sg-123"⟩ [] rfl⟩

end Amazon

/-! ## Claim theorems: credential cache -/

namespace Google

/-- C1 (code bug): with no readable cache file and a successful code
exchange, `browserSource.Token` runs the interactive flow and returns the
exchanged token, but never persists it — the token file is still absent
afterwards, so a following call runs the interactive flow again. This
refutes the persistence step stated by the spec and by the source file's
own header comment (`PutToken` is defined but never called). -/
theorem c1_browserSourceToken_does_not_persist :
    (browserSourceToken ⟨none, .ok ⟨"atok", "rtok"⟩⟩).result =
      .ok ⟨"atok", "rtok"⟩
    ∧ (browserSourceToken ⟨none, .ok ⟨"atok", "rtok"⟩⟩).interactive = true
    ∧ (browserSourceToken ⟨none, .ok ⟨"atok", "rtok"⟩⟩).world.tokenFile = none
    ∧ (browserSourceToken
        (browserSourceToken ⟨none, .ok ⟨"atok", "rtok"⟩⟩).world).interactive =
      true :=
  ⟨rfl, rfl, rfl, rfl⟩

/-- C8: `PutToken` creates the parent directory with owner-only
permissions (mode 448 = octal 700) when it is absent, fully replaces the
file contents with the single encoded record (truncating, not
appending), and returns the first error among directory creation, file
open, encode and close, with the encode error prioritized over the close
error when both occur. -/
theorem c8_putToken_spec (fs : TokenFS) (fl : PutFailures)
    (tok : OAuthToken) :
    (gobSourcePutToken fs fl tok).2 =
      (if fl.mkdirFails then some "mkdir failed"
       else if fl.openFails then some "open failed"
       else if fl.encodeFails then some "encode failed"
       else if fl.closeFails then some "close failed"
       else none)
    ∧ (fl.mkdirFails = false → fl.openFails = false → fl.encodeFails = false →
        (gobSourcePutToken fs fl tok).1.file =
          some ([tok], (fs.file.map Prod.snd).getD 384)
        ∧ (gobSourcePutToken fs fl tok).1.parentDir =
          some (fs.parentDir.getD 448)) := by
  obtain ⟨m, o, e, c⟩ := fl
  cases m <;> cases o <;> cases e <;> cases c <;>
    simp [gobSourcePutToken]

/-- Witness for C8: a full success run on a filesystem with a missing
parent directory and a stale two-record file of another mode. -/
theorem c8_putToken_spec_witness :
    (gobSourcePutToken ⟨none, some ([⟨"old", "old2"⟩, ⟨"old3", "old4"⟩], 256)⟩
        ⟨false, false, false, false⟩ ⟨"a", "r"⟩).2 = none
    ∧ (gobSourcePutToken ⟨none, some ([⟨"old", "old2"⟩, ⟨"old3", "old4"⟩], 256)⟩
        ⟨false, false, false, false⟩ ⟨"a", "r"⟩).1.file =
      some ([⟨"a", "r"⟩], 256)
    ∧ (gobSourcePutToken ⟨none, some ([⟨"old", "old2"⟩, ⟨"old3", "old4"⟩], 256)⟩
        ⟨false, false, false, false⟩ ⟨"a", "r"⟩).1.parentDir = some 448 := by
  have h := c8_putToken_spec
    ⟨none, some ([⟨"old", "old2"⟩, ⟨"old3", "old4"⟩], 256)⟩
    ⟨false, false, false, false⟩ ⟨"a", "r"⟩
  have h2 := h.2 rfl rfl rfl
  exact ⟨h.1, h2.1, h2.2⟩

end Google
